import Mathlib

/-!
# cf-app-info: the `app-info` plugin

A shallow embedding of `src/plugin/plugin.go` and the properties of its
field resolver, lookup routine and dispatcher.

Layout
* the fragment of Go's `strings`, `fmt` and `reflect` packages the plugin calls;
* the host library's record types (`plugin_models`) and the connection;
* the plugin's functions, in source order;
* lemmas and the theorems about them.

Effects are made explicit: every effectful function takes the `World` it runs in
(the calls made on the connection so far and everything written to standard
output) and returns the world it leaves.
-/

set_option autoImplicit false
set_option linter.dupNamespace false

namespace AppInfo

/-! ## Go `strings` -/

namespace strings

/-- Go `strings.Join(elems, sep)`: the empty string for no element, the element
itself for one, otherwise a builder that receives the first element and then,
for every further element, the separator followed by the element. -/
def Join : List String → String → String
  | [], _ => ""
  | [e], _ => e
  | e :: rest, sep => rest.foldl (fun b s => b ++ sep ++ s) e

end strings

/-! ## Go `fmt` -/

namespace fmt

/-- The digit loop of `fmtInteger` for base 10: while `u >= 10` the least
significant digit is stored in front of the buffer and `u` is divided by ten;
the last digit is stored when the loop ends. The fuel bounds the number of
digits (20 are enough for an unsigned 64-bit value). -/
def fmtDigits : Nat → Nat → List Char → List Char
  | 0, _, buf => buf
  | fuel + 1, u, buf =>
    if 10 ≤ u then fmtDigits fuel (u / 10) (Nat.digitChar (u - (u / 10) * 10) :: buf)
    else Nat.digitChar u :: buf

/-- Go `fmtInteger` for a signed operand printed with `%v`: the operand arrives
as `uint64(v)`; it is negative when its 64-bit two's complement reading is, and
is then negated modulo `2^64`; a minus sign is put in front of the digits. -/
def fmtInteger (v : Int) : String :=
  let u : Nat := (v % 2 ^ 64).toNat
  let negative : Bool := decide (2 ^ 63 ≤ u)
  let u := if negative then (2 ^ 64 - u) % 2 ^ 64 else u
  let digits := fmtDigits 20 u []
  ⟨if negative then '-' :: digits else digits⟩

/-- Go `fmtBoolean`. -/
def fmtBoolean (b : Bool) : String :=
  if b then "true" else "false"

/-- Go `tooLarge`: widths, precisions and argument indexes beyond a million are refused. -/
def tooLarge (x : Nat) : Bool :=
  decide (1000000 < x)

/-- Go `parsenum` on the characters between `start` and `end`: the value read so
far, whether a digit was seen, and the characters left. When the number gets too
large the scan gives up and reports the end of its range. -/
def parsenum : List Char → Nat → Bool → Nat × Bool × List Char
  | [], num, isnum => (num, isnum, [])
  | c :: cs, num, isnum =>
    if '0' ≤ c ∧ c ≤ '9' then
      if tooLarge num then (0, false, [])
      else parsenum cs (num * 10 + (c.toNat - '0'.toNat)) true
    else (num, isnum, c :: cs)

/-- Go `argNumber` followed by `parseArgNumber`, for a call without operands.
The result is the rest of the format, `found`, and whether the format is still
well-indexed (`goodArgNum`). Without a leading `[` nothing is consumed. With one,
no index can name an operand, so `goodArgNum` is lost; the bracket alone is
skipped when the format is shorter than `[n]` or has no closing bracket, and
otherwise everything up to the closing bracket is skipped, `found` telling
whether the brackets held a number and nothing else. -/
def argNumber (s : List Char) (good : Bool) : List Char × Bool × Bool :=
  match s with
  | '[' :: rest =>
    if s.length < 3 then (rest, false, false)
    else
      let inner := rest.takeWhile (fun c => c != ']')
      if inner.length < rest.length then
        let r := parsenum inner 0 false
        (rest.drop (inner.length + 1), r.2.1 && r.2.2.isEmpty, false)
      else (rest, false, false)
  | _ => (s, false, good)

/-- The flag loop of `doPrintf` (`#`, `0`, `+`, `-` and space). The flags only
steer how an operand is printed, so with no operand they are just skipped. -/
def skipFlags : List Char → List Char
  | [] => []
  | c :: cs =>
    if c = '#' ∨ c = '0' ∨ c = '+' ∨ c = '-' ∨ c = ' ' then skipFlags cs else c :: cs

/-- One directive of `doPrintf` for a call without operands: `s` is the format
after the percent sign. Returns what is written and the rest of the format
(`none` when the loop is left). In order: flags, argument index, width (`*`
finds no operand and writes `%!(BADWIDTH)`), precision (likewise
`%!(BADPREC)`), argument index, verb. A format that ends before the verb writes
`%!(NOVERB)`; the verb `%` writes a percent sign; any other verb `c` finds no
operand and writes `%!c(MISSING)`, or `%!c(BADINDEX)` after a bad index. -/
def directive (s : List Char) : List Char × Option (List Char) :=
  let s := skipFlags s
  -- explicit argument index
  let (s, afterIndex, good) := argNumber s true
  -- width
  let (s, afterIndex, good, out) :=
    match s with
    | '*' :: rest => (rest, false, good, "%!(BADWIDTH)".data)
    | _ =>
      let r := parsenum s 0 false
      (r.2.2, afterIndex, good && !(afterIndex && r.2.1), [])
  -- precision
  let (s, afterIndex, good, out) :=
    match s with
    | '.' :: rest =>
      let good := good && !afterIndex
      let (s, afterIndex, good) := argNumber rest good
      match s with
      | '*' :: rest => (rest, false, good, out ++ "%!(BADPREC)".data)
      | _ => ((parsenum s 0 false).2.2, afterIndex, good, out)
    | _ => (s, afterIndex, good, out)
  let (s, good) :=
    if afterIndex then (s, good)
    else let r := argNumber s good; (r.1, r.2.2)
  match s with
  | [] => (out ++ "%!(NOVERB)".data, none)
  | verb :: rest =>
    if verb = '%' then (out ++ ['%'], some rest)
    else if !good then (out ++ "%!".data ++ [verb] ++ "(BADINDEX)".data, some rest)
    else (out ++ "%!".data ++ [verb] ++ "(MISSING)".data, some rest)

/-- The format loop of `doPrintf` for a call without operands: text up to the
next percent sign is copied, then one directive is processed. Every round
consumes at least one character, so a fuel of the format's length plus one
is never used up. -/
def formatLoop : Nat → List Char → List Char → List Char
  | 0, _, buf => buf
  | fuel + 1, s, buf =>
    let buf := buf ++ s.takeWhile (fun c => c != '%')
    match s.dropWhile (fun c => c != '%') with
    | [] => buf
    | _ :: s =>
      match directive s with
      | (out, none) => buf ++ out
      | (out, some rest) => formatLoop fuel rest (buf ++ out)

/-- Go `fmt.Sprintf(format)` with no operand after the format. -/
def Sprintf (format : String) : String :=
  ⟨formatLoop (format.length + 1) format.data []⟩

end fmt

/-! ## The host library's types (`plugin_models`) -/

/-- A value of a composite kind (map, pointer, slice of structs with times and
floats) of a field the plugin only ever prints as a whole: it is carried as the
text `fmt.Sprint` renders for it. -/
structure Rendered where
  text : String
deriving DecidableEq, Repr

/-- Modelled from the spec: `plugin_models.GetApp_DomainFields` is declared in the
host CLI's library, not under src/ (the domain of a RouteSummary). -/
structure GetApp_DomainFields where
  Guid : String
  Name : String
deriving DecidableEq, Repr

/-- Modelled from the spec: `plugin_models.GetApp_RouteSummary` is declared in the
host CLI's library, not under src/ (RouteSummary: host, domain name, path). -/
structure GetApp_RouteSummary where
  Guid : String
  Host : String
  Domain : GetApp_DomainFields
  Path : String
  Port : Int
deriving DecidableEq, Repr

/-- Modelled from the spec: `plugin_models.GetApp_ServiceSummary` is declared in
the host CLI's library, not under src/ (ServiceSummary: name and unique
identifier). -/
structure GetApp_ServiceSummary where
  Guid : String
  Name : String
deriving DecidableEq, Repr

/-- Modelled from the spec: `plugin_models.GetAppModel` is declared in the host
CLI's library, not under src/. Its fields, in declaration order: the scalar
attributes the spec lists as property names, the composite attributes, and the
two ordered sequences. `int` and `int64` fields hold 64-bit values. -/
structure GetAppModel where
  Guid : String
  Name : String
  BuildpackUrl : String
  Command : String
  Diego : Bool
  DetectedStartCommand : String
  DiskQuota : Int
  EnvironmentVars : Rendered
  InstanceCount : Int
  Memory : Int
  RunningInstances : Int
  HealthCheckTimeout : Int
  State : String
  SpaceGuid : String
  PackageUpdatedAt : Rendered
  PackageState : String
  StagingFailedReason : String
  Stack : Rendered
  Instances : Rendered
  Routes : List GetApp_RouteSummary
  Services : List GetApp_ServiceSummary
deriving DecidableEq, Repr

/-- The range of a Go `int64`. -/
def isInt64 (v : Int) : Prop :=
  -(2 ^ 63) ≤ v ∧ v < 2 ^ 63

instance (v : Int) : Decidable (isInt64 v) := by
  unfold isInt64; infer_instance

/-! ## Go `fmt` printing of operands, `reflect` -/

namespace fmt

/-- Go `fmt.Sprintln(a...)`: the operands' default renderings, always separated
by one space, followed by a newline. -/
def Sprintln (operands : List String) : String :=
  String.intercalate " " operands ++ "\n"

/-- The `%v` rendering of a `GetApp_DomainFields` struct: its fields between
braces, separated by spaces. -/
def printDomain (d : GetApp_DomainFields) : String :=
  "\x7b" ++ d.Guid ++ " " ++ d.Name ++ "\x7d"

/-- The `%v` rendering of a `GetApp_RouteSummary` struct. -/
def printRoute (r : GetApp_RouteSummary) : String :=
  "\x7b" ++ r.Guid ++ " " ++ r.Host ++ " " ++ printDomain r.Domain ++ " " ++ r.Path ++ " "
    ++ fmtInteger r.Port ++ "\x7d"

/-- The `%v` rendering of a `GetApp_ServiceSummary` struct. -/
def printService (s : GetApp_ServiceSummary) : String :=
  "\x7b" ++ s.Guid ++ " " ++ s.Name ++ "\x7d"

end fmt

namespace reflect

/-- The value of one field of the application record, by kind. -/
inductive Value where
  | str (s : String)
  | bool (b : Bool)
  | int (v : Int)
  | composite (r : Rendered)
  | routes (rs : List GetApp_RouteSummary)
  | services (ss : List GetApp_ServiceSummary)
deriving DecidableEq, Repr

/-- The fields of the record as `reflect` sees them: name and value, in
declaration order. -/
def fields (app : GetAppModel) : List (String × Value) :=
  [ ("Guid", .str app.Guid),
    ("Name", .str app.Name),
    ("BuildpackUrl", .str app.BuildpackUrl),
    ("Command", .str app.Command),
    ("Diego", .bool app.Diego),
    ("DetectedStartCommand", .str app.DetectedStartCommand),
    ("DiskQuota", .int app.DiskQuota),
    ("EnvironmentVars", .composite app.EnvironmentVars),
    ("InstanceCount", .int app.InstanceCount),
    ("Memory", .int app.Memory),
    ("RunningInstances", .int app.RunningInstances),
    ("HealthCheckTimeout", .int app.HealthCheckTimeout),
    ("State", .str app.State),
    ("SpaceGuid", .str app.SpaceGuid),
    ("PackageUpdatedAt", .composite app.PackageUpdatedAt),
    ("PackageState", .str app.PackageState),
    ("StagingFailedReason", .str app.StagingFailedReason),
    ("Stack", .composite app.Stack),
    ("Instances", .composite app.Instances),
    ("Routes", .routes app.Routes),
    ("Services", .services app.Services) ]

/-- The names of the record's fields. -/
def fieldNames (app : GetAppModel) : List String :=
  (fields app).map Prod.fst

/-- Go `reflect.Indirect(reflect.ValueOf(app)).FieldByName(name)`: the field with
exactly that name; `none` stands for the invalid (zero) `Value`. -/
def FieldByName (app : GetAppModel) (name : String) : Option Value :=
  ((fields app).find? (fun f => f.1 = name)).map Prod.snd

end reflect

namespace fmt

/-- Go `fmt.Sprint(f)` for one `reflect.Value` operand: the operand is replaced
by the value it holds, which is printed by kind. -/
def Sprint : reflect.Value → String
  | .str s => s
  | .bool b => fmtBoolean b
  | .int v => fmtInteger v
  | .composite r => r.text
  | .routes rs => "[" ++ String.intercalate " " (rs.map printRoute) ++ "]"
  | .services ss => "[" ++ String.intercalate " " (ss.map printService) ++ "]"

end fmt

/-! ## The connection and the world -/

/-- A Go `error` handed back by the host connection, known through `Error()`. -/
structure HostError where
  Error : String
deriving DecidableEq, Repr

/-- The two calls of `plugin.CliConnection` the plugin makes, with what they
answer: a pair of a result and an error that may be absent (`nil`). -/
structure CliConnection where
  IsLoggedIn : Bool × Option HostError
  GetApp : String → GetAppModel × Option HostError

/-- A call made on the connection. -/
inductive Call where
  | IsLoggedIn
  | GetApp (name : String)
deriving DecidableEq, Repr

/-- What the process has done so far: the calls made on the connection, in
order, and everything written to standard output. -/
structure World where
  calls : List Call
  stdout : String
deriving DecidableEq, Repr

/-- How a run of the entry point ends: it returns to the host, the process is
terminated by `os.Exit(code)`, or it panics. -/
inductive Status where
  | returned
  | exited (code : Nat)
  | panicked
deriving DecidableEq, Repr

/-- The errors `getAppInfo` returns, one per `return` of a non-nil error, named
after the conditions of the spec's taxonomy: the fresh `fmt.Errorf` values of
lines 74, 85 and 90 and the connection's own error handed on by line 82. -/
inductive AppInfoError where
  | InvalidArguments
  | AuthCheckFailed (err : HostError)
  | NotLoggedIn
  | AppLookupFailed (appName : String) (err : HostError)
deriving DecidableEq, Repr

/-- The message `Error()` gives for each error: the constant formats of lines 74
and 85, `"couldn't get app %s: %s"` filled with the application name and the
underlying error, and the connection's own message. -/
def AppInfoError.Error : AppInfoError → String
  | .InvalidArguments => "invalid parameters"
  | .AuthCheckFailed err => err.Error
  | .NotLoggedIn => "you need to log in"
  | .AppLookupFailed appName err => "couldn't get app " ++ appName ++ ": " ++ err.Error

/-! ## The plugin (`src/plugin/plugin.go`) -/

/-- Source `fatalIf`: a non-nil error is printed with `fmt.Fprintln(os.Stdout,
"error:", err)` and the process exits with code 1. -/
def fatalIf (err : Option AppInfoError) (w : World) : World × Status :=
  match err with
  | some e => ({ w with stdout := w.stdout ++ fmt.Sprintln ["error:", e.Error] }, .exited 1)
  | none => (w, .returned)

/-- Source `formatRoute`: `fmt.Sprintf("%s.%s%s", route.Host, route.Domain.Name,
route.Path)`. -/
def formatRoute (route : GetApp_RouteSummary) : String :=
  route.Host ++ "." ++ route.Domain.Name ++ route.Path

/-- The loop of `mapRoutes`: `vsm[i] = formatRoute(v)` for the routes from index
`i` on. -/
def mapRoutesLoop : Nat → List GetApp_RouteSummary → List String → List String
  | _, [], vsm => vsm
  | i, v :: rest, vsm => mapRoutesLoop (i + 1) rest (vsm.set i (formatRoute v))

/-- Source `mapRoutes`: a slice of `len(routes)` empty strings, filled by the loop. -/
def mapRoutes (routes : List GetApp_RouteSummary) : List String :=
  mapRoutesLoop 0 routes (List.replicate routes.length "")

/-- Source `formatService`: `fmt.Sprintf("%s:%s", service.Name, service.Guid)`. -/
def formatService (service : GetApp_ServiceSummary) : String :=
  service.Name ++ ":" ++ service.Guid

/-- The loop of `mapServices`. -/
def mapServicesLoop : Nat → List GetApp_ServiceSummary → List String → List String
  | _, [], vsm => vsm
  | i, v :: rest, vsm => mapServicesLoop (i + 1) rest (vsm.set i (formatService v))

/-- Source `mapServices`. -/
def mapServices (routes : List GetApp_ServiceSummary) : List String :=
  mapServicesLoop 0 routes (List.replicate routes.length "")

/-- Source `getField`. -/
def getField (app : GetAppModel) (name : String) : String :=
  if name = "Routes" then
    strings.Join (mapRoutes app.Routes) "\n"
  else if name = "Services" then
    strings.Join (mapServices app.Services) "\n"
  else
    match reflect.FieldByName app name with
    | none => ""
    | some f => fmt.Sprint f

/-- Source `Plugin.getAppInfo`. The value of the requested field is handed to
`fmt.Printf` as its format, without operands. -/
def getAppInfo (cliConnection : CliConnection) (args : List String) (w : World) :
    World × Option AppInfoError :=
  if args.length ≠ 2 then
    (w, some .InvalidArguments)
  else
    let appName := args.getD 0 ""
    let propName := args.getD 1 ""
    let w := { w with calls := w.calls ++ [Call.IsLoggedIn] }
    match cliConnection.IsLoggedIn with
    | (_, some err) => (w, some (.AuthCheckFailed err))
    | (false, none) => (w, some .NotLoggedIn)
    | (true, none) =>
      let w := { w with calls := w.calls ++ [Call.GetApp appName] }
      match cliConnection.GetApp appName with
      | (_, some err) => (w, some (.AppLookupFailed appName err))
      | (app, none) =>
        ({ w with stdout := w.stdout ++ fmt.Sprintf (getField app propName) }, none)

/-- Source `Plugin.Run`. Indexing an empty argument list panics. -/
def Run (cliConnection : CliConnection) (args : List String) (w : World) : World × Status :=
  match args with
  | [] => (w, .panicked)
  | command :: rest =>
    if command ≠ "app-info" then
      (w, .returned)
    else
      let r := getAppInfo cliConnection rest w
      fatalIf r.2 r.1

/-- Host type `plugin.VersionType`. -/
structure VersionType where
  Major : Nat
  Minor : Nat
  Build : Nat
deriving DecidableEq, Repr

/-- Host type `plugin.Usage`. -/
structure Usage where
  Usage : String
deriving DecidableEq, Repr

/-- Host type `plugin.Command`. -/
structure Command where
  Name : String
  HelpText : String
  UsageDetails : Usage
deriving DecidableEq, Repr

/-- Host type `plugin.PluginMetadata`. -/
structure PluginMetadata where
  Name : String
  Version : VersionType
  MinCliVersion : VersionType
  Commands : List Command
deriving DecidableEq, Repr

/-- Source `Plugin.GetMetadata`. -/
def GetMetadata : PluginMetadata :=
  { Name := "app-info",
    Version := { Major := 0, Minor := 0, Build := 1 },
    MinCliVersion := { Major := 6, Minor := 7, Build := 0 },
    Commands := [
      { Name := "app-info",
        HelpText := "Plugin to get the application id",
        UsageDetails := {
          Usage := "$ cf app-info helloworld Guid" ++
            "$ cf app-info helloworld Name" ++
            "$ cf app-info helloworld BuildpackUrl" ++
            "$ cf app-info helloworld Command" ++
            "$ cf app-info helloworld Diego" ++
            "$ cf app-info helloworld DetectedStartCommand" ++
            "$ cf app-info helloworld DiskQuota" ++
            "$ cf app-info helloworld InstanceCount" ++
            "$ cf app-info helloworld Memory" ++
            "$ cf app-info helloworld RunningInstances" ++
            "$ cf app-info helloworld HealthCheckTimeout" ++
            "$ cf app-info helloworld State" ++
            "$ cf app-info helloworld SpaceGuid" ++
            "$ cf app-info helloworld PackageUpdatedAt" ++
            "$ cf app-info helloworld PackageState" ++
            "$ cf app-info helloworld StagingFailedReason" ++
            "$ cf app-info helloworld Routes" ++
            "$ cf app-info helloworld Services" } } ] }

/-! ## Sample data -/

/-- The zero value of the record: what `GetApp` hands back beside an error. -/
def zeroApp : GetAppModel :=
  { Guid := "", Name := "", BuildpackUrl := "", Command := "", Diego := false,
    DetectedStartCommand := "", DiskQuota := 0, EnvironmentVars := ⟨"map[]"⟩,
    InstanceCount := 0, Memory := 0, RunningInstances := 0, HealthCheckTimeout := 0,
    State := "", SpaceGuid := "", PackageUpdatedAt := ⟨"<nil>"⟩, PackageState := "",
    StagingFailedReason := "", Stack := ⟨"<nil>"⟩, Instances := ⟨"[]"⟩,
    Routes := [], Services := [] }

/-- A connection that is logged in and whose fetch hands back `app` for every name. -/
def loggedInWith (app : GetAppModel) : CliConnection :=
  { IsLoggedIn := (true, none), GetApp := fun _ => (app, none) }

/-- The world before the plugin has done anything. -/
def World.start : World :=
  { calls := [], stdout := "" }


/-! ## Specification-level notions -/

/-- The decimal digits of a natural number, most significant first. -/
def decimalNat (n : Nat) : List Char :=
  if n = 0 then ['0'] else (Nat.digits 10 n).reverse.map Nat.digitChar

/-- The decimal rendering of an integer: a minus sign for a negative number,
then the digits of its absolute value. -/
def decimal (v : Int) : String :=
  ⟨if v < 0 then '-' :: decimalNat v.natAbs else decimalNat v.natAbs⟩

/-- The newline-separated entries of a text: the non-empty pieces between
newlines (an empty text has no entry). -/
def entries (text : String) : List (List Char) :=
  (text.data.splitOn '\n').filter (fun e => e ≠ [])

/-! ## Lemmas -/

theorem intercalate_go_eq_foldl (sep : String) (l : List String) (acc : String) :
    String.intercalate.go acc sep l = l.foldl (fun b s => b ++ sep ++ s) acc := by
  induction l generalizing acc with
  | nil => rfl
  | cons a l ih => simp [String.intercalate.go, ih]

theorem Join_eq_intercalate (l : List String) (sep : String) :
    strings.Join l sep = String.intercalate sep l := by
  match l with
  | [] => rfl
  | [e] => rfl
  | e :: e2 :: rest =>
    simp only [strings.Join, String.intercalate, intercalate_go_eq_foldl]

theorem mapRoutesLoop_eq (routes : List GetApp_RouteSummary) (done : List String) :
    mapRoutesLoop done.length routes (done ++ List.replicate routes.length "")
      = done ++ routes.map formatRoute := by
  induction routes generalizing done with
  | nil => simp [mapRoutesLoop]
  | cons v rest ih =>
    have h := ih (done ++ [formatRoute v])
    simp only [List.length_append, List.length_singleton, List.append_assoc,
      List.singleton_append] at h
    simp [mapRoutesLoop, List.replicate_succ, h]

theorem mapRoutes_eq_map (routes : List GetApp_RouteSummary) :
    mapRoutes routes = routes.map formatRoute := by
  simpa [mapRoutes] using mapRoutesLoop_eq routes []

theorem mapServicesLoop_eq (services : List GetApp_ServiceSummary) (done : List String) :
    mapServicesLoop done.length services (done ++ List.replicate services.length "")
      = done ++ services.map formatService := by
  induction services generalizing done with
  | nil => simp [mapServicesLoop]
  | cons v rest ih =>
    have h := ih (done ++ [formatService v])
    simp only [List.length_append, List.length_singleton, List.append_assoc,
      List.singleton_append] at h
    simp [mapServicesLoop, List.replicate_succ, h]

theorem mapServices_eq_map (services : List GetApp_ServiceSummary) :
    mapServices services = services.map formatService := by
  simpa [mapServices] using mapServicesLoop_eq services []

theorem foldl_sep_length (sep : String) (l : List String) (acc : String) :
    (l.foldl (fun b s => b ++ sep ++ s) acc).length
      = acc.length + (l.map fun s => sep.length + s.length).sum := by
  induction l generalizing acc with
  | nil => simp
  | cons a l ih => simp [ih, String.length_append]; omega

theorem intercalate_length (sep : String) (l : List String) :
    (String.intercalate sep l).length
      = (l.map String.length).sum + sep.length * (l.length - 1) := by
  match l with
  | [] => rfl
  | e :: rest =>
    simp only [String.intercalate, intercalate_go_eq_foldl, foldl_sep_length]
    induction rest with
    | nil => simp
    | cons a rest ih =>
      simp only [List.map_cons, List.sum_cons, List.length_cons, Nat.add_sub_cancel] at ih ⊢
      rw [Nat.mul_succ]; omega


theorem fmtDigits_eq (fuel u : Nat) (buf : List Char) (hfuel : 0 < fuel) (hu : u < 10 ^ fuel) :
    fmt.fmtDigits fuel u buf = decimalNat u ++ buf := by
  induction fuel generalizing u buf with
  | zero => omega
  | succ fuel ih =>
    unfold fmt.fmtDigits
    split_ifs with h10
    · have hdiv : u / 10 < 10 ^ fuel := by
        rw [Nat.div_lt_iff_lt_mul (by norm_num)]
        calc u < 10 ^ (fuel + 1) := hu
          _ = 10 ^ fuel * 10 := by ring
      have hpos : u / 10 ≠ 0 := by omega
      have hu0 : u ≠ 0 := by omega
      have hfuel2 : 0 < fuel := by
        rcases Nat.eq_zero_or_pos fuel with h0 | h0
        · subst h0; simp at hdiv; omega
        · exact h0
      rw [ih (u / 10) _ hfuel2 hdiv]
      have hd : Nat.digits 10 u = (u % 10) :: Nat.digits 10 (u / 10) :=
        Nat.digits_def' (by norm_num) (by omega)
      have hmod : u - u / 10 * 10 = u % 10 := by omega
      rw [hmod]
      unfold decimalNat
      rw [if_neg hpos, if_neg hu0, hd]
      simp
    · unfold decimalNat
      rcases Nat.eq_zero_or_pos u with h0 | h0
      · subst h0; rfl
      · have hu0 : u ≠ 0 := by omega
        have hd : Nat.digits 10 u = [u] := Nat.digits_of_lt 10 u hu0 (by omega)
        rw [if_neg hu0, hd]
        rfl

theorem fmtInteger_eq_decimal (v : Int) (h : isInt64 v) : fmt.fmtInteger v = decimal v := by
  obtain ⟨hlo, hhi⟩ := h
  norm_num at hlo hhi
  have hlt : v.natAbs < 10 ^ 20 := by norm_num; omega
  unfold fmt.fmtInteger decimal
  by_cases hneg : v < 0
  · have hu : (v % 2 ^ 64).toNat = (2 ^ 64 - v.natAbs) := by norm_num; omega
    have hbig : (2 : Nat) ^ 63 ≤ 2 ^ 64 - v.natAbs := by norm_num; omega
    have hval : (2 ^ 64 - (2 ^ 64 - v.natAbs)) % 2 ^ 64 = v.natAbs := by
      norm_num; omega
    simp only [hu, hbig, decide_True, if_true, hval, hneg]
    rw [fmtDigits_eq 20 _ [] (by norm_num) hlt]
    simp
  · have hu : (v % 2 ^ 64).toNat = v.natAbs := by norm_num; omega
    have hsmall : ¬ (2 : Nat) ^ 63 ≤ v.natAbs := by norm_num; omega
    simp only [hu, hsmall, decide_False, hneg, if_false, Bool.false_eq_true]
    rw [fmtDigits_eq 20 _ [] (by norm_num) hlt]
    simp

theorem intercalate_cons_append {α : Type} (sep x y : List α) (rest : List (List α)) :
    List.intercalate sep ((x ++ y) :: rest) = x ++ List.intercalate sep (y :: rest) := by
  cases rest <;> simp [List.intercalate]

theorem intercalate_data (sep : Char) (l : List String) :
    (String.intercalate (String.singleton sep) l).data
      = List.intercalate [sep] (l.map String.data) := by
  match l with
  | [] => rfl
  | e :: rest =>
    simp only [String.intercalate, intercalate_go_eq_foldl]
    induction rest generalizing e with
    | nil => simp [List.intercalate]
    | cons a rest ih =>
      rw [List.foldl_cons, ih]
      have h := intercalate_cons_append [sep] (e.data ++ [sep]) a.data (rest.map String.data)
      simpa [List.intercalate, String.singleton] using h


theorem getField_Routes_eq (app : GetAppModel) :
    getField app "Routes" = String.intercalate "\n" (app.Routes.map formatRoute) := by
  simp [getField, Join_eq_intercalate, mapRoutes_eq_map]

theorem getField_Services_eq (app : GetAppModel) :
    getField app "Services" = String.intercalate "\n" (app.Services.map formatService) := by
  simp [getField, Join_eq_intercalate, mapServices_eq_map]

theorem formatService_data (s : GetApp_ServiceSummary) :
    (formatService s).data = s.Name.data ++ ':' :: s.Guid.data := by
  simp [formatService]

theorem splitOn_services (services : List GetApp_ServiceSummary) (hne : services ≠ [])
    (hclean : ∀ s ∈ services, '\n' ∉ s.Name.data ∧ '\n' ∉ s.Guid.data) :
    (String.intercalate "\n" (services.map formatService)).data.splitOn '\n'
      = services.map fun s => (formatService s).data := by
  have hsep : ("\n" : String) = String.singleton '\n' := rfl
  rw [hsep, intercalate_data, List.map_map]
  apply List.splitOn_intercalate
  · intro l hl
    simp only [List.mem_map, Function.comp] at hl
    obtain ⟨s, hs, rfl⟩ := hl
    rw [formatService_data]
    have := hclean s hs
    simp [this.1, this.2]
  · simpa using hne

theorem fieldNames_eq (app : GetAppModel) :
    reflect.fieldNames app
      = ["Guid", "Name", "BuildpackUrl", "Command", "Diego", "DetectedStartCommand",
         "DiskQuota", "EnvironmentVars", "InstanceCount", "Memory", "RunningInstances",
         "HealthCheckTimeout", "State", "SpaceGuid", "PackageUpdatedAt", "PackageState",
         "StagingFailedReason", "Stack", "Instances", "Routes", "Services"] :=
  rfl

theorem getAppInfo_error_stdout (conn : CliConnection) (args : List String) (w : World)
    (e : AppInfoError) (h : (getAppInfo conn args w).2 = some e) :
    (getAppInfo conn args w).1.stdout = w.stdout := by
  by_cases hlen : args.length = 2
  · match args, hlen with
    | [a, b], _ =>
      rcases h1 : conn.IsLoggedIn with ⟨b1, _ | err⟩
      · cases b1
        · simp [getAppInfo, h1]
        · rcases h2 : conn.GetApp a with ⟨app, _ | err⟩
          · simp [getAppInfo, h1, h2] at h
          · simp [getAppInfo, h1, h2]
      · simp [getAppInfo, h1]
  · simp [getAppInfo, hlen]

theorem Sprintln_error (msg : String) :
    fmt.Sprintln ["error:", msg] = "error: " ++ msg ++ "\n" := by
  have h : ("error: " : String) = "error:" ++ " " := rfl
  simp [fmt.Sprintln, String.intercalate, String.intercalate.go, h]

theorem Sprintf_of_no_percent (format : String) (h : '%' ∉ format.data) :
    fmt.Sprintf format = format := by
  have htake : format.data.takeWhile (fun c => c != '%') = format.data := by
    rw [List.takeWhile_eq_self_iff]
    intro c hc
    have : c ≠ '%' := fun heq => h (heq ▸ hc)
    simpa using this
  have hdrop : format.data.dropWhile (fun c => c != '%') = [] := by
    rw [List.dropWhile_eq_nil_iff]
    intro c hc
    have : c ≠ '%' := fun heq => h (heq ▸ hc)
    simpa using this
  simp [fmt.Sprintf, fmt.formatLoop, htake, hdrop]

theorem getAppInfo_prints_of_no_percent (conn : CliConnection) (appName propName : String)
    (w : World) (app : GetAppModel)
    (hlogged : conn.IsLoggedIn = (true, none)) (hfetch : conn.GetApp appName = (app, none))
    (hplain : '%' ∉ (getField app propName).data) :
    getAppInfo conn [appName, propName] w
      = ({ calls := w.calls ++ [.IsLoggedIn, .GetApp appName],
           stdout := w.stdout ++ getField app propName }, none) := by
  simp [getAppInfo, hlogged, hfetch, Sprintf_of_no_percent _ hplain]

/-! ## Theorems -/

/-- C1: for every application record, whose `Memory` is a Go `int64`,
`getField app "Memory"` is exactly the decimal rendering of the record's Memory
field (an optional minus sign and the base-10 digits, nothing before or after);
for Memory = 512 it is exactly the text 512. -/
theorem getField_Memory_decimal (app : GetAppModel) (h : isInt64 app.Memory) :
    getField app "Memory" = decimal app.Memory
    ∧ (app.Memory = 512 → getField app "Memory" = "512") := by
  have hget : getField app "Memory" = fmt.fmtInteger app.Memory := rfl
  refine ⟨by rw [hget, fmtInteger_eq_decimal _ h], fun h512 => ?_⟩
  rw [hget, h512]
  rfl

/-- Witness of C1 at a record with Memory = 512. -/
theorem getField_Memory_decimal_witness :
    isInt64 ({ zeroApp with Memory := 512 } : GetAppModel).Memory
    ∧ getField { zeroApp with Memory := 512 } "Memory" = "512" :=
  ⟨by decide, (getField_Memory_decimal { zeroApp with Memory := 512 } (by decide)).2 rfl⟩

/-- C2: for every application record, `getField app "Routes"` is the list of the
routes, in the record's order, each rendered as Host, a dot, Domain.Name and
Path, joined with one newline between consecutive entries and nothing else: its
length is the sum of the entries' lengths plus one per gap, an empty route list
gives the empty string, and the routes a.x.com/p and b.y.com (empty path) give
exactly the two lines a.x.com/p and b.y.com with no trailing newline. -/
theorem getField_Routes_joined (app : GetAppModel) :
    getField app "Routes"
      = String.intercalate "\n"
          (app.Routes.map fun r => r.Host ++ "." ++ r.Domain.Name ++ r.Path)
    ∧ (getField app "Routes").length
      = (app.Routes.map fun r => (r.Host ++ "." ++ r.Domain.Name ++ r.Path).length).sum
          + (app.Routes.length - 1)
    ∧ (app.Routes = [] → getField app "Routes" = "")
    ∧ (∀ g1 g2 dg1 dg2 : String, ∀ p1 p2 : Int,
        app.Routes =
          [ { Guid := g1, Host := "a", Domain := { Guid := dg1, Name := "x.com" },
              Path := "/p", Port := p1 },
            { Guid := g2, Host := "b", Domain := { Guid := dg2, Name := "y.com" },
              Path := "", Port := p2 } ] →
        getField app "Routes" = "a.x.com/p\nb.y.com") := by
  have h := getField_Routes_eq app
  refine ⟨h, ?_, ?_, ?_⟩
  · rw [h, intercalate_length]
    have hsep : "\n".length = 1 := rfl
    simp [List.map_map, Function.comp_def, formatRoute, hsep]
  · intro hnil
    rw [h, hnil]
    rfl
  · intro g1 g2 dg1 dg2 p1 p2 hroutes
    rw [h, hroutes]
    rfl

/-- Witness of C2 at a record with the two routes a.x.com/p and b.y.com. -/
theorem getField_Routes_joined_witness :
    getField
      { zeroApp with
        Routes := [⟨"g1", "a", ⟨"d1", "x.com"⟩, "/p", 0⟩, ⟨"g2", "b", ⟨"d2", "y.com"⟩, "", 0⟩] }
      "Routes" = "a.x.com/p\nb.y.com" :=
  (getField_Routes_joined
    { zeroApp with
      Routes := [⟨"g1", "a", ⟨"d1", "x.com"⟩, "/p", 0⟩, ⟨"g2", "b", ⟨"d2", "y.com"⟩, "", 0⟩] }).2.2.2
    "g1" "g2" "d1" "d2" 0 0 rfl

/-- C3: for every application record, `getField app "Services"` is the list of
the services, in the record's order, each rendered as Name, a colon and Guid,
joined with one newline between consecutive entries; when no Name or Guid
contains a newline the result has exactly as many newline-separated entries as
the record has services (and, for a non-empty list, splitting at the newlines
gives back exactly the entries); the single service db with Guid 123 gives
exactly db:123. -/
theorem getField_Services_joined (app : GetAppModel) :
    getField app "Services"
      = String.intercalate "\n" (app.Services.map fun s => s.Name ++ ":" ++ s.Guid)
    ∧ ((∀ s ∈ app.Services, '\n' ∉ s.Name.data ∧ '\n' ∉ s.Guid.data) →
        (entries (getField app "Services")).length = app.Services.length
        ∧ (app.Services ≠ [] →
            (getField app "Services").data.splitOn '\n'
              = app.Services.map fun s => (s.Name ++ ":" ++ s.Guid).data))
    ∧ (app.Services = [{ Guid := "123", Name := "db" }] →
        getField app "Services" = "db:123") := by
  have h := getField_Services_eq app
  refine ⟨h, ?_, ?_⟩
  · intro hclean
    rw [h]
    constructor
    · by_cases hne : app.Services = []
      · rw [hne]; rfl
      · unfold entries
        rw [splitOn_services _ hne hclean, List.filter_eq_self.mpr, List.length_map]
        intro e he
        simp only [List.mem_map] at he
        obtain ⟨s, _, rfl⟩ := he
        simp [formatService_data]
    · intro hne
      exact splitOn_services _ hne hclean
  · intro hsvc
    rw [h, hsvc]
    rfl

/-- Witness of C3 at a record with the services db:123 and cache:456. -/
theorem getField_Services_joined_witness :
    (∀ s ∈ ({ zeroApp with Services := [⟨"123", "db"⟩, ⟨"456", "cache"⟩] } : GetAppModel).Services,
        '\n' ∉ s.Name.data ∧ '\n' ∉ s.Guid.data)
    ∧ (entries (getField { zeroApp with Services := [⟨"123", "db"⟩, ⟨"456", "cache"⟩] }
        "Services")).length = 2 :=
  ⟨by decide,
   ((getField_Services_joined
      { zeroApp with Services := [⟨"123", "db"⟩, ⟨"456", "cache"⟩] }).2.1 (by decide)).1⟩


/-- C4: `getAppInfo` hands the resolved value to `fmt.Printf` as a format. For a
record whose Command is the text run 100% the resolver returns that text, but
what reaches standard output is run 100%!(NOVERB); for a route whose path is
/p%20q the resolver returns a.x.com/p%20q, but the output is
a.x.com/p%!q(MISSING). In both cases the output differs from the resolved value. -/
theorem getAppInfo_percent_not_verbatim :
    getField { zeroApp with Command := "run 100%" } "Command" = "run 100%"
    ∧ getAppInfo (loggedInWith { zeroApp with Command := "run 100%" }) ["app", "Command"]
        World.start
      = ({ calls := [.IsLoggedIn, .GetApp "app"], stdout := "run 100%!(NOVERB)" }, none)
    ∧ getField { zeroApp with Routes := [⟨"", "a", ⟨"", "x.com"⟩, "/p%20q", 0⟩] } "Routes"
      = "a.x.com/p%20q"
    ∧ getAppInfo (loggedInWith { zeroApp with Routes := [⟨"", "a", ⟨"", "x.com"⟩, "/p%20q", 0⟩] })
        ["app", "Routes"] World.start
      = ({ calls := [.IsLoggedIn, .GetApp "app"], stdout := "a.x.com/p%!q(MISSING)" }, none)
    ∧ ("run 100%!(NOVERB)" : String) ≠ "run 100%"
    ∧ ("a.x.com/p%!q(MISSING)" : String) ≠ "a.x.com/p%20q" := by
  refine ⟨rfl, rfl, rfl, rfl, by decide, by decide⟩


/-- C5: for every application record and every property name that is not Routes,
Services or the name of a field of the record, `getField` returns the empty
string, and with a logged-in connection and a successful fetch `getAppInfo`
returns no error and leaves standard output as it was, so that `Run` returns
without terminating the process. The names NotAField, memory, routes and the
empty name are such names. -/
theorem getField_unknown_empty (app : GetAppModel) (name : String)
    (hroutes : name ≠ "Routes") (hservices : name ≠ "Services")
    (hfield : name ∉ reflect.fieldNames app) :
    getField app name = ""
    ∧ (∀ (conn : CliConnection) (appName : String) (w : World),
        conn.IsLoggedIn = (true, none) → conn.GetApp appName = (app, none) →
        getAppInfo conn [appName, name] w
          = ({ calls := w.calls ++ [.IsLoggedIn, .GetApp appName], stdout := w.stdout }, none)
        ∧ Run conn ["app-info", appName, name] w
          = ({ calls := w.calls ++ [.IsLoggedIn, .GetApp appName], stdout := w.stdout },
             .returned))
    ∧ (∀ n ∈ ["NotAField", "memory", "routes", ""],
        n ≠ "Routes" ∧ n ≠ "Services" ∧ n ∉ reflect.fieldNames app) := by
  have hget : getField app name = "" := by
    have hnone : reflect.FieldByName app name = none := by
      unfold reflect.FieldByName
      rw [Option.map_eq_none', List.find?_eq_none]
      intro f hf hname
      apply hfield
      have hEq : f.1 = name := by simpa using hname
      rw [← hEq]
      exact List.mem_map_of_mem Prod.fst hf
    simp [getField, hroutes, hservices, hnone]
  have hprint : fmt.Sprintf "" = "" := rfl
  have hinfo : ∀ (conn : CliConnection) (appName : String) (w : World),
      conn.IsLoggedIn = (true, none) → conn.GetApp appName = (app, none) →
      getAppInfo conn [appName, name] w
        = ({ calls := w.calls ++ [.IsLoggedIn, .GetApp appName], stdout := w.stdout }, none) := by
    intro conn appName w hlogged hfetch
    simp [getAppInfo, hlogged, hfetch, hget, hprint]
  refine ⟨hget, ?_, ?_⟩
  · intro conn appName w hlogged hfetch
    refine ⟨hinfo conn appName w hlogged hfetch, ?_⟩
    simp [Run, hinfo conn appName w hlogged hfetch, fatalIf]
  · intro n hn
    simp only [List.mem_cons, List.mem_singleton, List.not_mem_nil, or_false] at hn
    rw [fieldNames_eq]
    rcases hn with rfl | rfl | rfl | rfl <;> decide

/-- Witness of C5 at the name NotAField. -/
theorem getField_unknown_empty_witness :
    ("NotAField" ≠ "Routes" ∧ "NotAField" ≠ "Services"
      ∧ "NotAField" ∉ reflect.fieldNames zeroApp)
    ∧ getField zeroApp "NotAField" = "" :=
  ⟨by decide, (getField_unknown_empty zeroApp "NotAField" (by decide) (by decide) (by decide)).1⟩

/-- C6: for every argument list whose length is not 2, `getAppInfo` fails with
the InvalidArguments error, whose message is invalid parameters, whatever the
connection would answer, and leaves the world as it was: no call on the
connection, no output. For a list of exactly 2 elements it never fails with
InvalidArguments. -/
theorem getAppInfo_invalid_arguments (conn : CliConnection) (args : List String) (w : World) :
    (args.length ≠ 2 → getAppInfo conn args w = (w, some .InvalidArguments))
    ∧ AppInfoError.InvalidArguments.Error = "invalid parameters"
    ∧ (args.length = 2 → (getAppInfo conn args w).2 ≠ some .InvalidArguments) := by
  refine ⟨?_, rfl, ?_⟩
  · intro hlen
    simp [getAppInfo, hlen]
  · intro hlen
    match args, hlen with
    | [a, b], _ =>
      rcases h1 : conn.IsLoggedIn with ⟨b1, _ | err⟩
      · cases b1
        · simp [getAppInfo, h1]
        · rcases h2 : conn.GetApp a with ⟨app, _ | err⟩ <;> simp [getAppInfo, h1, h2]
      · simp [getAppInfo, h1]

/-- Witness of C6 at an argument list of one element and at one of two. -/
theorem getAppInfo_invalid_arguments_witness :
    getAppInfo (loggedInWith zeroApp) ["app"] World.start
      = (World.start, some .InvalidArguments)
    ∧ (getAppInfo (loggedInWith zeroApp) ["app", "Name"] World.start).2
      ≠ some .InvalidArguments :=
  ⟨(getAppInfo_invalid_arguments (loggedInWith zeroApp) ["app"] World.start).1 (by decide),
   (getAppInfo_invalid_arguments (loggedInWith zeroApp) ["app", "Name"] World.start).2.2 rfl⟩

/-- C7: for every two-element argument list, if the connection answers
`IsLoggedIn` with false and no error, `getAppInfo` fails with the NotLoggedIn
error, whose message is you need to log in; the only call made on the connection
is `IsLoggedIn` (no `GetApp`), and standard output is as it was. -/
theorem getAppInfo_not_logged_in (conn : CliConnection) (appName propName : String) (w : World)
    (hlogged : conn.IsLoggedIn = (false, none)) :
    getAppInfo conn [appName, propName] w
      = ({ calls := w.calls ++ [.IsLoggedIn], stdout := w.stdout }, some .NotLoggedIn)
    ∧ AppInfoError.NotLoggedIn.Error = "you need to log in" := by
  refine ⟨?_, rfl⟩
  simp [getAppInfo, hlogged]

/-- Witness of C7 at a connection that is not logged in. -/
theorem getAppInfo_not_logged_in_witness :
    getAppInfo { IsLoggedIn := (false, none), GetApp := fun _ => (zeroApp, none) }
        ["app", "Name"] World.start
      = ({ calls := [.IsLoggedIn], stdout := "" }, some .NotLoggedIn) :=
  (getAppInfo_not_logged_in { IsLoggedIn := (false, none), GetApp := fun _ => (zeroApp, none) }
    "app" "Name" World.start rfl).1

/-- C8: for every two-element argument list with a logged-in connection, if
`GetApp appName` hands back an error `e`, `getAppInfo` fails with the
AppLookupFailed error, whose message is couldn't get app, the application name,
a colon and a space, and the message of `e` (so it contains both the name and the
underlying message); the calls made are `IsLoggedIn` and `GetApp appName`, and
standard output is as it was. -/
theorem getAppInfo_lookup_failed (conn : CliConnection) (appName propName : String) (w : World)
    (app : GetAppModel) (e : HostError)
    (hlogged : conn.IsLoggedIn = (true, none)) (hfetch : conn.GetApp appName = (app, some e)) :
    getAppInfo conn [appName, propName] w
      = ({ calls := w.calls ++ [.IsLoggedIn, .GetApp appName], stdout := w.stdout },
         some (.AppLookupFailed appName e))
    ∧ (AppInfoError.AppLookupFailed appName e).Error
      = "couldn't get app " ++ appName ++ ": " ++ e.Error
    ∧ appName.data <:+: (AppInfoError.AppLookupFailed appName e).Error.data
    ∧ e.Error.data <:+: (AppInfoError.AppLookupFailed appName e).Error.data := by
  refine ⟨?_, rfl, ?_, ?_⟩
  · simp [getAppInfo, hlogged, hfetch]
  · refine ⟨"couldn't get app ".data, (": " ++ e.Error).data, ?_⟩
    simp [AppInfoError.Error]
  · refine ⟨("couldn't get app " ++ appName ++ ": ").data, [], ?_⟩
    simp [AppInfoError.Error]

/-- Witness of C8 at a connection whose fetch fails with the message not found. -/
theorem getAppInfo_lookup_failed_witness :
    (getAppInfo { IsLoggedIn := (true, none), GetApp := fun _ => (zeroApp, some ⟨"not found"⟩) }
        ["app", "Name"] World.start).2.map AppInfoError.Error
      = some "couldn't get app app: not found" :=
  congrArg (fun r => r.2.map AppInfoError.Error)
    (getAppInfo_lookup_failed
      { IsLoggedIn := (true, none), GetApp := fun _ => (zeroApp, some ⟨"not found"⟩) }
      "app" "Name" World.start zeroApp ⟨"not found"⟩ rfl rfl).1


/-- C9: for every argument list whose first element is app-info, `Run`
terminates the process with exit code 1 if and only if `getAppInfo` on the
remaining arguments returns an error; in that case what it writes to standard
output is exactly the line made of error, a colon, a space and the message,
followed by a newline (nothing was written before it); when `getAppInfo` returns
no error, `Run` returns without exiting and adds nothing to what `getAppInfo`
did. -/
theorem Run_exit_iff_error (conn : CliConnection) (rest : List String) (w : World) :
    ((Run conn ("app-info" :: rest) w).2 = .exited 1 ↔ (getAppInfo conn rest w).2 ≠ none)
    ∧ (∀ e, (getAppInfo conn rest w).2 = some e →
        Run conn ("app-info" :: rest) w
          = ({ calls := (getAppInfo conn rest w).1.calls,
               stdout := w.stdout ++ ("error: " ++ e.Error ++ "\n") }, .exited 1))
    ∧ ((getAppInfo conn rest w).2 = none →
        Run conn ("app-info" :: rest) w = ((getAppInfo conn rest w).1, .returned)) := by
  have hrun : Run conn ("app-info" :: rest) w
      = fatalIf (getAppInfo conn rest w).2 (getAppInfo conn rest w).1 := by
    simp [Run]
  refine ⟨?_, ?_, ?_⟩
  · rw [hrun]
    cases h : (getAppInfo conn rest w).2 <;> simp [fatalIf]
  · intro e he
    rw [hrun, he]
    simp [fatalIf, Sprintln_error, getAppInfo_error_stdout conn rest w e he]
  · intro hnone
    rw [hrun, hnone]
    rfl

/-- Witness of C9 at a connection that is not logged in. -/
theorem Run_exit_iff_error_witness :
    Run { IsLoggedIn := (false, none), GetApp := fun _ => (zeroApp, none) }
        ["app-info", "app", "Name"] World.start
      = ({ calls := [.IsLoggedIn], stdout := "error: you need to log in\n" }, .exited 1) :=
  (Run_exit_iff_error { IsLoggedIn := (false, none), GetApp := fun _ => (zeroApp, none) }
    ["app", "Name"] World.start).2.1 .NotLoggedIn rfl

/-- C10: the one command `GetMetadata` registers is named app-info, and `Run`
filters on exactly that name: for every argument list whose first element is not
the name of a registered command, `Run` returns and leaves the world as it was
(no `IsLoggedIn`, no `GetApp`, no output, no exit), and for the registered name
it hands the remaining arguments to `getAppInfo`. -/
theorem Run_other_command (conn : CliConnection) (command : String) (rest : List String)
    (w : World) :
    GetMetadata.Commands.map Command.Name = ["app-info"]
    ∧ (command ∉ GetMetadata.Commands.map Command.Name →
        Run conn (command :: rest) w = (w, .returned))
    ∧ (command ∈ GetMetadata.Commands.map Command.Name →
        Run conn (command :: rest) w
          = fatalIf (getAppInfo conn rest w).2 (getAppInfo conn rest w).1) := by
  have hnames : GetMetadata.Commands.map Command.Name = ["app-info"] := rfl
  refine ⟨hnames, ?_, ?_⟩
  · intro hcmd
    rw [hnames, List.mem_singleton] at hcmd
    simp [Run, hcmd]
  · intro hcmd
    rw [hnames, List.mem_singleton] at hcmd
    simp [Run, hcmd]

/-- Witness of C10 at the command name apps. -/
theorem Run_other_command_witness :
    "apps" ∉ GetMetadata.Commands.map Command.Name
    ∧ Run (loggedInWith zeroApp) ["apps"] World.start = (World.start, .returned) :=
  ⟨by decide, (Run_other_command (loggedInWith zeroApp) "apps" [] World.start).2.1 (by decide)⟩

end AppInfo
